import Mathlib

/-!
Shallow embedding of the rust-orca simulation core (`src/operators.rs`).

Pure functions of the source are translated directly; the grid store
(`Context`, declared in `context.rs`, which is not part of the sources at
hand) is modelled from the specification's description of the grid store
(section 4.2).  Machine integers (`u8`, `usize`) are modelled as `Nat`,
with the `u8` truncation and saturation points made explicit where the
source performs them.
-/

namespace Orca

/-- Modelled from the spec: the emitted note record (section 3).  `midi.rs`
is not among the sources; only the field list matters to the engine, which
treats notes as black boxes (it merely queues them). -/
structure MidiNote where
  channel : Nat
  octave : Nat
  pitch : Nat
  sharp : Bool
  velocity : Nat
  duration : Nat
  time : Nat
  deriving Repr, DecidableEq

/-- Modelled from the spec: the grid store of section 4.2 (`context.rs` is
not among the sources).  The character matrix and lock mask are total
functions guarded by the bounds; reads outside bounds behave as the empty
marker, and writes/locks outside bounds are defensively ignored
(section 7: "all indices are defensively clamped or defaulted"). -/
structure Context where
  height : Nat
  width : Nat
  grid : Int → Int → Char
  locks : Int → Int → Bool
  vars : Char → Char
  notes : List MidiNote
  ticks : Nat
  tick_time : Nat

/-- In-bounds test for the grid store. -/
def Context.inBounds (ctx : Context) (row col : Int) : Bool :=
  0 ≤ row && row < (ctx.height : Int) && 0 ≤ col && col < (ctx.width : Int)

/-- Modelled from the spec: `read(row,col) -> char`, empty marker if out of
bounds. -/
def Context.read (ctx : Context) (row col : Int) : Char :=
  if ctx.inBounds row col then ctx.grid row col else '\x00'

/-- Modelled from the spec: `write(row,col,char)`; out-of-bounds writes are
defensively ignored. -/
def Context.write (ctx : Context) (row col : Int) (value : Char) : Context :=
  if ctx.inBounds row col then
    { ctx with grid := fun r c => if r = row ∧ c = col then value else ctx.grid r c }
  else ctx

/-- Modelled from the spec: `lock(row,col)`; out-of-bounds locks are
defensively ignored. -/
def Context.lock (ctx : Context) (row col : Int) : Context :=
  if ctx.inBounds row col then
    { ctx with locks := fun r c => if r = row ∧ c = col then true else ctx.locks r c }
  else ctx

/-- Modelled from the spec: `isLocked(row,col) -> bool`. -/
def Context.is_locked (ctx : Context) (row col : Int) : Bool :=
  if ctx.inBounds row col then ctx.locks row col else false

/-- Modelled from the spec: `unlockAll()`, resetting the lock mask. -/
def Context.unlock_all (ctx : Context) : Context :=
  { ctx with locks := fun _ _ => false }

/-- Modelled from the spec: `clearAllVariables()`. -/
def Context.clear_all_variables (ctx : Context) : Context :=
  { ctx with vars := fun _ => '\x00' }

/-- Modelled from the spec: `setVariable(key,val)`. -/
def Context.set_variable (ctx : Context) (key value : Char) : Context :=
  { ctx with vars := fun k => if k = key then value else ctx.vars k }

/-- Modelled from the spec: `readVariable(key) -> char`, empty marker if
unset. -/
def Context.read_variable (ctx : Context) (key : Char) : Char :=
  ctx.vars key

/-- Modelled from the spec: appending a note event to this tick's emission
queue. -/
def Context.write_note (ctx : Context) (note : MidiNote) : Context :=
  { ctx with notes := ctx.notes ++ [note] }

/-- A port: an ephemeral (name, row, column, value) record (`context.rs`
declares it; shape per section 3 of the spec and its uses in
`operators.rs`). -/
structure Port where
  name : String
  row : Int
  col : Int
  value : Char
  deriving Repr, DecidableEq

/-- `Port::new`. -/
def Port.new (name : String) (row col : Int) (value : Char) : Port :=
  ⟨name, row, col, value⟩

/-- Modelled from the spec: `listen(name,row,col,default) -> Port` resolves
`read(row,col)`; the empty marker is replaced by the caller-supplied
default, while the recorded location is always the real target cell. -/
def Context.listen (ctx : Context) (name : String) (row col : Int)
    (default : Char) : Port :=
  let v := ctx.read row col
  ⟨name, row, col, if v = '\x00' then default else v⟩

/-- `char_to_base_36` from `operators.rs`: decode a character to a
magnitude 0-35 plus a case flag.  Character comparisons are on code
points: 48-57 is `'0'`-`'9'`, 97-122 is `'a'`-`'z'`, 65-90 is
`'A'`-`'Z'`. -/
def char_to_base_36 (c : Char) : Nat × Bool :=
  if 48 ≤ c.toNat ∧ c.toNat ≤ 57 then
    (c.toNat - 48, false)
  else if 97 ≤ c.toNat ∧ c.toNat ≤ 122 then
    (c.toNat + 10 - 97, false)
  else if 65 ≤ c.toNat ∧ c.toNat ≤ 90 then
    (c.toNat + 10 - 65, true)
  else
    (0, false)

/-- `base_36_to_char` from `operators.rs`: encode a magnitude (reduced
modulo 36) as a digit or a lower/upper-case letter (48 is the code point
of `'0'`, 65 of `'A'`, 97 of `'a'`). -/
def base_36_to_char (c : Nat) (upper : Bool) : Char :=
  let c := c % 36
  let c :=
    if c < 10 then c + 48
    else if upper then c - 10 + 65
    else c - 10 + 97
  Char.ofNat c

/-- The `Update` enum from `operators.rs`. -/
inductive Update where
  | Inputs : List Port → Update
  | Outputs : List Port → Update
  | Locks : List Port → Update
  | Notes : List MidiNote → Update
  | Variables : List (Char × Char) → Update

/-- The `Operator` struct: a name plus an evaluate function computing a
list of updates from a read-only context and a position. -/
structure Operator where
  name : String
  evaluate : Context → Int → Int → List Update

/-- Applying one `Update` to the context, as the body of the `for update in
updates` loop of `Operator::apply` does: inputs and locks lock their ports,
outputs write then lock, notes are queued, variables are set. -/
def applyUpdate (ctx : Context) (u : Update) : Context :=
  match u with
  | .Inputs ports => ports.foldl (fun c p => c.lock p.row p.col) ctx
  | .Outputs ports =>
      ports.foldl (fun c p => (c.write p.row p.col p.value).lock p.row p.col) ctx
  | .Locks ports => ports.foldl (fun c p => c.lock p.row p.col) ctx
  | .Notes ns => ns.foldl (fun c n => c.write_note n) ctx
  | .Variables vs => vs.foldl (fun c kv => c.set_variable kv.1 kv.2) ctx

/-- `Operator::apply` from `operators.rs`: if the cell is locked do
nothing; otherwise evaluate the operator on the (pre-state) context and
apply its updates in list order. -/
def Operator.apply (op : Operator) (ctx : Context) (row col : Int) : Context :=
  if ctx.is_locked row col then ctx
  else (op.evaluate ctx row col).foldl applyUpdate ctx

/-- The `add` operator: decode left/right operands (default '0'), write the
encoded sum below, case is the disjunction of the operand cases. -/
def add (ctx : Context) (row col : Int) : List Update :=
  let a_port := ctx.listen "a" row (col - 1) '0'
  let b_port := ctx.listen "b" row (col + 1) '0'
  let a := char_to_base_36 a_port.value
  let b := char_to_base_36 b_port.value
  let out := base_36_to_char (a.1 + b.1) (a.2 || b.2)
  let out_port := Port.new "out" (row + 1) col out
  [Update.Inputs [a_port, b_port], Update.Outputs [out_port]]

/-- The `multiply` operator: `a.saturating_mul(b)` on `u8` (clamped at 255)
is `min (a * b) 255`; the result is then encoded by the codec (which
reduces modulo 36). -/
def multiply (ctx : Context) (row col : Int) : List Update :=
  let a_port := ctx.listen "a" row (col - 1) '0'
  let b_port := ctx.listen "b" row (col + 1) '0'
  let a := char_to_base_36 a_port.value
  let b := char_to_base_36 b_port.value
  let out := base_36_to_char (min (a.1 * b.1) 255) (a.2 || b.2)
  let out_port := Port.new "out" (row + 1) col out
  [Update.Inputs [a_port, b_port], Update.Outputs [out_port]]

/-- The `clock` operator: `ticks / max(rate,1) % max(mod,1)`, cast to `u8`
(modelled by the explicit `% 256`), encoded with the mod operand's case. -/
def clock (ctx : Context) (row col : Int) : List Update :=
  let rate_port := ctx.listen "rate" row (col - 1) '1'
  let mod_port := ctx.listen "mod" row (col + 1) '8'
  let rate := (char_to_base_36 rate_port.value).1
  let cmod := char_to_base_36 mod_port.value
  let rate := max rate 1
  let clock_mod := max cmod.1 1
  let out := ctx.ticks / rate % clock_mod
  let out := base_36_to_char (out % 256) cmod.2
  let out_port := Port.new "out" (row + 1) col out
  [Update.Inputs [rate_port, mod_port], Update.Outputs [out_port]]

/-- The `delay` operator: listen to the cell below (default empty) and set
it to the bang marker when `ticks % (max(rate,1) * max(mod,1)) == 0`. -/
def delay (ctx : Context) (row col : Int) : List Update :=
  let rate_port := ctx.listen "rate" row (col - 1) '1'
  let mod_port := ctx.listen "mod" row (col + 1) '8'
  let rate := (char_to_base_36 rate_port.value).1
  let delay_mod := (char_to_base_36 mod_port.value).1
  let rate := max rate 1
  let delay_mod := max delay_mod 1
  let out_port := ctx.listen "out" (row + 1) col '\x00'
  let out_port :=
    if ctx.ticks % (rate * delay_mod) = 0 then { out_port with value := '*' }
    else out_port
  [Update.Inputs [rate_port, mod_port], Update.Outputs [out_port]]

/-- The `east` operator: if the cell to the right reads empty, move this
cell's value there (clearing this cell); otherwise replace this cell with
the bang marker and leave the neighbor untouched. -/
def east (ctx : Context) (row col : Int) : List Update :=
  let input_port := ctx.listen "" row col '\x00'
  let output_port := ctx.listen "" row (col + 1) '\x00'
  if output_port.value = '\x00' then
    let output_port := { output_port with value := input_port.value }
    let input_port := { input_port with value := '\x00' }
    [Update.Outputs [input_port, output_port], Update.Locks [output_port]]
  else
    let input_port := { input_port with value := '*' }
    [Update.Outputs [input_port]]

/-- The `push` operator: key (two left, default '0'), len (one left,
default '1', floored to 1), val (right, default empty); writes val at
`(row+1, col + key % len)` and locks the `len` cells `(row+1, col+i)`. -/
def push (ctx : Context) (row col : Int) : List Update :=
  let key_port := ctx.listen "key" row (col - 2) '0'
  let len_port := ctx.listen "len" row (col - 1) '1'
  let key := (char_to_base_36 key_port.value).1
  let len := (char_to_base_36 len_port.value).1
  let len := max len 1
  let val_port := ctx.listen "val" row (col + 1) '\x00'
  let out := val_port.value
  let out_port := Port.new "out" (row + 1) (col + (key % len : Nat)) out
  let locks := (List.range len).map fun (i : Nat) =>
    Port.new "locked" (row + 1) (col + (i : Int)) '\x00'
  [Update.Inputs [key_port, len_port, val_port], Update.Outputs [out_port],
   Update.Locks locks]

/-- The scan of the `comment` operator: the Rust `for i in c0..width` loop
assigns `c = i` and breaks at the first `'#'`; `fuel` is the number of
remaining loop iterations (`width - c0`), and the result is the final value
of `c`, which stays `c0` when the range is empty. -/
def scanHash (ctx : Context) (row : Int) (c0 : Int) (fuel : Nat) : Int :=
  match fuel with
  | 0 => c0
  | n + 1 =>
      if ctx.read row c0 = '#' then c0
      else if n = 0 then c0
      else scanHash ctx row (c0 + 1) n

/-- The `comment` operator: scan right from `col+1` for a literal `'#'` (or
run out of columns) and lock every column from `col` to the final scan
position inclusive. -/
def comment (ctx : Context) (row col : Int) : List Update :=
  let width : Int := ctx.width
  let c := scanHash ctx row (col + 1) (width - (col + 1)).toNat
  let locks := (List.range (c + 1 - col).toNat).map fun (l : Nat) =>
    Port.new "locked" row (col + (l : Int)) '\x00'
  [Update.Locks locks]

/-- The `variable` operator: with an empty write operand, output the
variable named by the read operand below; otherwise store the read
operand's value under the write operand's character (locking only the read
operand cell, and producing no output).  (`variable` in the source;
renamed because `variable` is a Lean keyword.) -/
def variableOp (ctx : Context) (row col : Int) : List Update :=
  let write_port := ctx.listen "write" row (col - 1) '\x00'
  let read_port := ctx.listen "read" row (col + 1) '\x00'
  if write_port.value = '\x00' then
    let out_port := Port.new "out" (row + 1) col (ctx.read_variable read_port.value)
    [Update.Inputs [write_port, read_port], Update.Outputs [out_port]]
  else
    let value := read_port.value
    [Update.Inputs [read_port], Update.Variables [(write_port.value, value)]]

/-- Row-major scan order of the grid, as the nested `for row in 0..rows`,
`for col in 0..cols` loops of `grid_tick` produce it. -/
def positions (rows cols : Nat) : List (Int × Int) :=
  (List.range rows).flatMap fun r =>
    (List.range cols).map fun c => ((r : Int), (c : Int))

/-- Building a tick-operator table from glyph/operator pairs, as
`get_tick_operators` keys each operator by its configured symbol. -/
def tickOpsOf (l : List (Char × Operator)) : Char → Option Operator :=
  fun g => (l.find? fun p => p.1 = g).map Prod.snd

/-- Building a bang-operator table from the same pairs, as
`get_bang_operators` re-keys every tick operator by the lowercase form of
its glyph. -/
def bangOpsOf (l : List (Char × Operator)) : Char → Option Operator :=
  fun g => (l.find? fun p => p.1.toLower = g).map Prod.snd

/-- `grid_tick` from `operators.rs`: unlock all cells and clear the
variable table; clear every bang marker; apply tick operators in row-major
order; then apply bang operators in row-major order, each gated on a bang
currently on its north, west, or south neighbor (read from the evolving
grid at scan time); finally increment the tick counter. -/
def grid_tick (ctx : Context) (tick_operators bang_operators : Char → Option Operator) :
    Context :=
  let rows := ctx.height
  let cols := ctx.width
  let ctx := ctx.unlock_all.clear_all_variables
  let ctx := (positions rows cols).foldl
    (fun c p => if c.read p.1 p.2 = '*' then c.write p.1 p.2 '\x00' else c) ctx
  let ctx := (positions rows cols).foldl
    (fun c p =>
      match tick_operators (c.read p.1 p.2) with
      | some op => op.apply c p.1 p.2
      | none => c) ctx
  let ctx := (positions rows cols).foldl
    (fun c p =>
      match bang_operators (c.read p.1 p.2) with
      | some op =>
          if c.read (p.1 - 1) p.2 = '*' ∨ c.read p.1 (p.2 - 1) = '*' ∨
              c.read (p.1 + 1) p.2 = '*' then
            op.apply c p.1 p.2
          else c
      | none => c) ctx
  { ctx with ticks := ctx.ticks + 1 }

/-- Modelled from the spec: the tick of section 4.4 as the claim reads it,
for refinement comparison with `grid_tick`.  Identical to `grid_tick`
except that the bang-operator pass gates each bang operator on the bangs
present in the snapshot taken when the tick-operator pass completed, so
that a bang newly produced during the bang pass cannot trigger a further
bang operator in the same tick (single-hop-per-tick propagation). -/
def grid_tick_single_hop (ctx : Context)
    (tick_operators bang_operators : Char → Option Operator) : Context :=
  let rows := ctx.height
  let cols := ctx.width
  let ctx := ctx.unlock_all.clear_all_variables
  let ctx := (positions rows cols).foldl
    (fun c p => if c.read p.1 p.2 = '*' then c.write p.1 p.2 '\x00' else c) ctx
  let ctx := (positions rows cols).foldl
    (fun c p =>
      match tick_operators (c.read p.1 p.2) with
      | some op => op.apply c p.1 p.2
      | none => c) ctx
  let snap := ctx
  let ctx := (positions rows cols).foldl
    (fun c p =>
      match bang_operators (c.read p.1 p.2) with
      | some op =>
          if snap.read (p.1 - 1) p.2 = '*' ∨ snap.read p.1 (p.2 - 1) = '*' ∨
              snap.read (p.1 + 1) p.2 = '*' then
            op.apply c p.1 p.2
          else c
      | none => c) ctx
  { ctx with ticks := ctx.ticks + 1 }

/-- Build a concrete context: `h × w` grid populated from an association
list of `(row, col, char)` triples, all locks clear, empty variable table
and note queue, at tick count `t`. -/
def mkContext (h w : Nat) (cells : List (Int × Int × Char)) (t : Nat) : Context where
  height := h
  width := w
  grid := fun r c =>
    ((cells.find? fun e => e.1 = r ∧ e.2.1 = c).map fun e => e.2.2).getD '\x00'
  locks := fun _ _ => false
  vars := fun _ => '\x00'
  notes := []
  ticks := t
  tick_time := 0

/-- The `Operator` record for `east`, as `Operator::new("East", east)`. -/
def eastOperator : Operator := ⟨"East", east⟩

/-- The `Operator` record for `multiply`. -/
def multiplyOperator : Operator := ⟨"Multiply", multiply⟩

/-- The `Operator` record for `clock`. -/
def clockOperator : Operator := ⟨"Clock", clock⟩

/-- The `Operator` record for `delay`. -/
def delayOperator : Operator := ⟨"Delay", delay⟩

/-- The `Operator` record for `push`. -/
def pushOperator : Operator := ⟨"Push", push⟩

/-- The `Operator` record for `comment`. -/
def commentOperator : Operator := ⟨"Comment", comment⟩

/-- The `Operator` record for `variable`. -/
def variableOperator : Operator := ⟨"Variable", variableOp⟩

/-- A 5 × 2 grid exercising bang propagation with only `Delay` configured:
a tick-phase `D` at (0,0), and bang-phase `d` cells at (2,0) and (3,1). -/
def bangChainCtx : Context :=
  mkContext 5 2 [(0, 0, 'D'), (2, 0, 'd'), (3, 1, 'd')] 0

/-- The operator configuration registering only `Delay` under glyph `D`. -/
def delayOnlyConfig : List (Char × Operator) := [('D', delayOperator)]

/-- A 1 × 2 context whose cell (0,0) is already locked, for exercising the
dispatch skip rule. -/
def lockedCtx : Context :=
  { mkContext 1 2 [(0, 0, 'E')] 0 with
    locks := fun r c => decide (r = 0) && decide (c = 0) }

/-- A 2 × 3 context with a Multiply glyph between two `'6'` operands. -/
def mulCtx : Context := mkContext 2 3 [(0, 0, '6'), (0, 1, 'M'), (0, 2, '6')] 0

/-- A 1 × 2 context holding only an East glyph at (0,0). -/
def eastCtx : Context := mkContext 1 2 [(0, 0, 'E')] 0

/-- A 2 × 2 context with a Push glyph at (0,0) and value operand `'x'`. -/
def pushCtx : Context := mkContext 2 2 [(0, 0, 'P'), (0, 1, 'x')] 0

/-- A 2 × 3 context for the Clock scenario: rate `'1'`, glyph, mod `'4'`,
at tick count `t`. -/
def clockCtx (t : Nat) : Context :=
  mkContext 2 3 [(0, 0, '1'), (0, 1, 'C'), (0, 2, '4')] t

/-- A 1 × 1 context holding a lone comment delimiter. -/
def soloCommentCtx : Context := mkContext 1 1 [(0, 0, '#')] 0

/-- A 1 × 5 context where Comment is configured as `';'`: a comment opened
at (0,0) meets a second `';'` at (0,2) before the literal `'#'` at (0,4). -/
def semiCtx : Context :=
  mkContext 1 5 [(0, 0, ';'), (0, 1, 'a'), (0, 2, ';'), (0, 3, 'b'), (0, 4, '#')] 0

/-- A 1 × 3 context with a Variable glyph at (0,1), write operand `'x'` and
read operand `'5'`. -/
def varCtx : Context := mkContext 1 3 [(0, 0, 'x'), (0, 1, 'V'), (0, 2, '5')] 0

/-- The decoded magnitude is always at most 35. -/
lemma char_to_base_36_fst_le (c : Char) : (char_to_base_36 c).1 ≤ 35 := by
  unfold char_to_base_36
  split_ifs <;> simp <;> omega

namespace Context

@[simp] lemma inBounds_write (ctx : Context) (r0 c0 : Int) (v : Char) (r c : Int) :
    (ctx.write r0 c0 v).inBounds r c = ctx.inBounds r c := by
  unfold write
  split <;> rfl

@[simp] lemma inBounds_lock (ctx : Context) (r0 c0 : Int) (r c : Int) :
    (ctx.lock r0 c0).inBounds r c = ctx.inBounds r c := by
  unfold lock
  split <;> rfl

@[simp] lemma inBounds_set_variable (ctx : Context) (k v : Char) (r c : Int) :
    (ctx.set_variable k v).inBounds r c = ctx.inBounds r c := rfl

@[simp] lemma read_lock (ctx : Context) (r0 c0 : Int) (r c : Int) :
    (ctx.lock r0 c0).read r c = ctx.read r c := by
  unfold lock
  split <;> rfl

@[simp] lemma read_set_variable (ctx : Context) (k v : Char) (r c : Int) :
    (ctx.set_variable k v).read r c = ctx.read r c := rfl

@[simp] lemma read_write_note (ctx : Context) (n : MidiNote) (r c : Int) :
    (ctx.write_note n).read r c = ctx.read r c := rfl

@[simp] lemma is_locked_write (ctx : Context) (r0 c0 : Int) (v : Char) (r c : Int) :
    (ctx.write r0 c0 v).is_locked r c = ctx.is_locked r c := by
  unfold write
  split <;> rfl

@[simp] lemma is_locked_set_variable (ctx : Context) (k v : Char) (r c : Int) :
    (ctx.set_variable k v).is_locked r c = ctx.is_locked r c := rfl

@[simp] lemma notes_write (ctx : Context) (r0 c0 : Int) (v : Char) :
    (ctx.write r0 c0 v).notes = ctx.notes := by
  unfold write
  split <;> rfl

@[simp] lemma notes_lock (ctx : Context) (r0 c0 : Int) :
    (ctx.lock r0 c0).notes = ctx.notes := by
  unfold lock
  split <;> rfl

@[simp] lemma notes_set_variable (ctx : Context) (k v : Char) :
    (ctx.set_variable k v).notes = ctx.notes := rfl

@[simp] lemma read_variable_lock (ctx : Context) (r0 c0 : Int) (k : Char) :
    (ctx.lock r0 c0).read_variable k = ctx.read_variable k := by
  unfold lock
  split <;> rfl

@[simp] lemma read_variable_write (ctx : Context) (r0 c0 : Int) (v : Char) (k : Char) :
    (ctx.write r0 c0 v).read_variable k = ctx.read_variable k := by
  unfold write
  split <;> rfl

@[simp] lemma read_variable_set_self (ctx : Context) (k v : Char) :
    (ctx.set_variable k v).read_variable k = v := by
  simp [set_variable, read_variable]

lemma read_write_self (ctx : Context) (r c : Int) (v : Char)
    (h : ctx.inBounds r c = true) : (ctx.write r c v).read r c = v := by
  have h' := h
  simp only [Context.inBounds] at h'
  simp [write, read, Context.inBounds, h, h']

lemma read_write_of_ne (ctx : Context) (r0 c0 : Int) (v : Char) (r c : Int)
    (h : ¬(r = r0 ∧ c = c0)) : (ctx.write r0 c0 v).read r c = ctx.read r c := by
  unfold write
  split
  · simp [read, inBounds, h]
  · rfl

lemma is_locked_lock_self (ctx : Context) (r c : Int)
    (h : ctx.inBounds r c = true) : (ctx.lock r c).is_locked r c = true := by
  have h' := h
  simp only [Context.inBounds] at h'
  simp [lock, is_locked, Context.inBounds, h, h']

lemma is_locked_lock_of_ne (ctx : Context) (r0 c0 : Int) (r c : Int)
    (h : ¬(r = r0 ∧ c = c0)) : (ctx.lock r0 c0).is_locked r c = ctx.is_locked r c := by
  unfold lock
  split
  · simp [is_locked, inBounds, h]
  · rfl

lemma is_locked_lock_true (ctx : Context) (r0 c0 : Int) (r c : Int)
    (h : ctx.is_locked r c = true) : (ctx.lock r0 c0).is_locked r c = true := by
  by_cases hrc : r = r0 ∧ c = c0
  · obtain ⟨hr, hc⟩ := hrc
    subst hr; subst hc
    apply is_locked_lock_self
    by_contra hb
    rw [Bool.not_eq_true] at hb
    simp [is_locked, hb] at h
  · rw [is_locked_lock_of_ne _ _ _ _ _ hrc]
    exact h

end Context

/-- Folding a list of lock ports preserves already-set locks. -/
lemma is_locked_foldl_lock_true (ps : List Port) (ctx : Context) (r c : Int)
    (h : ctx.is_locked r c = true) :
    (ps.foldl (fun a p => a.lock p.row p.col) ctx).is_locked r c = true := by
  induction ps generalizing ctx with
  | nil => exact h
  | cons p ps ih => exact ih _ (Context.is_locked_lock_true _ _ _ _ _ h)

/-- Folding a list of lock ports preserves the bounds predicate. -/
lemma inBounds_foldl_lock (ps : List Port) (ctx : Context) (r c : Int) :
    (ps.foldl (fun a p => a.lock p.row p.col) ctx).inBounds r c = ctx.inBounds r c := by
  induction ps generalizing ctx with
  | nil => rfl
  | cons p ps ih => rw [List.foldl_cons, ih, Context.inBounds_lock]

/-- Folding a list of lock ports locks every in-bounds cell named by some
port in the list. -/
lemma is_locked_foldl_lock_of_mem (ps : List Port) (ctx : Context) (r c : Int)
    (hb : ctx.inBounds r c = true) (hm : ∃ p ∈ ps, p.row = r ∧ p.col = c) :
    (ps.foldl (fun a p => a.lock p.row p.col) ctx).is_locked r c = true := by
  induction ps generalizing ctx with
  | nil => simp at hm
  | cons p ps ih =>
      obtain ⟨q, hq, hqr, hqc⟩ := hm
      rcases List.mem_cons.mp hq with hq | hq
      · subst hq
        rw [List.foldl_cons]
        apply is_locked_foldl_lock_true
        rw [hqr, hqc]
        exact Context.is_locked_lock_self _ _ _ hb
      · rw [List.foldl_cons]
        exact ih _ (by rw [Context.inBounds_lock]; exact hb) ⟨q, hq, hqr, hqc⟩

/-- Folding a list of lock ports leaves the character matrix unchanged. -/
lemma read_foldl_lock (ps : List Port) (ctx : Context) (r c : Int) :
    (ps.foldl (fun a p => a.lock p.row p.col) ctx).read r c = ctx.read r c := by
  induction ps generalizing ctx with
  | nil => rfl
  | cons p ps ih => rw [List.foldl_cons, ih, Context.read_lock]

/-- A cell named by no port in a folded lock list keeps its lock state. -/
lemma is_locked_foldl_lock_of_not_mem (ps : List Port) (ctx : Context) (r c : Int)
    (hm : ∀ p ∈ ps, ¬(r = p.row ∧ c = p.col)) :
    (ps.foldl (fun a p => a.lock p.row p.col) ctx).is_locked r c = ctx.is_locked r c := by
  induction ps generalizing ctx with
  | nil => rfl
  | cons p ps ih =>
      rw [List.foldl_cons, ih _ (fun q hq => hm q (List.mem_cons_of_mem _ hq)),
        Context.is_locked_lock_of_ne]
      exact hm p (List.mem_cons_self p ps)

/-- Folding a list of output ports (write then lock) preserves the bounds
predicate. -/
lemma inBounds_foldl_writeLock (ps : List Port) (ctx : Context) (r c : Int) :
    ((ps.foldl (fun a p => (a.write p.row p.col p.value).lock p.row p.col) ctx)).inBounds
      r c = ctx.inBounds r c := by
  induction ps generalizing ctx with
  | nil => rfl
  | cons p ps ih =>
      rw [List.foldl_cons, ih, Context.inBounds_lock, Context.inBounds_write]

/-- Queueing notes preserves the bounds predicate. -/
lemma inBounds_foldl_note (ns : List MidiNote) (ctx : Context) (r c : Int) :
    ((ns.foldl (fun a n => a.write_note n) ctx)).inBounds r c = ctx.inBounds r c := by
  induction ns generalizing ctx with
  | nil => rfl
  | cons n ns ih =>
      rw [List.foldl_cons, ih]
      rfl

/-- Setting variables preserves the bounds predicate. -/
lemma inBounds_foldl_setVariable (vs : List (Char × Char)) (ctx : Context) (r c : Int) :
    ((vs.foldl (fun a kv => a.set_variable kv.1 kv.2) ctx)).inBounds r c
      = ctx.inBounds r c := by
  induction vs generalizing ctx with
  | nil => rfl
  | cons v vs ih => rw [List.foldl_cons, ih, Context.inBounds_set_variable]

/-- Applying one update never changes the grid dimensions, hence never the
bounds predicate. -/
lemma inBounds_applyUpdate (ctx : Context) (u : Update) (r c : Int) :
    (applyUpdate ctx u).inBounds r c = ctx.inBounds r c := by
  cases u with
  | Inputs ps => exact inBounds_foldl_lock ps ctx r c
  | Outputs ps => exact inBounds_foldl_writeLock ps ctx r c
  | Locks ps => exact inBounds_foldl_lock ps ctx r c
  | Notes ns => exact inBounds_foldl_note ns ctx r c
  | Variables vs => exact inBounds_foldl_setVariable vs ctx r c

/-- Applying a list of updates preserves the bounds predicate. -/
lemma inBounds_foldl_applyUpdate (us : List Update) (ctx : Context) (r c : Int) :
    (us.foldl applyUpdate ctx).inBounds r c = ctx.inBounds r c := by
  induction us generalizing ctx with
  | nil => rfl
  | cons u us ih => rw [List.foldl_cons, ih, inBounds_applyUpdate]

/-- Operator dispatch preserves the bounds predicate. -/
lemma inBounds_apply (op : Operator) (ctx : Context) (row col r c : Int) :
    (op.apply ctx row col).inBounds r c = ctx.inBounds r c := by
  unfold Operator.apply
  split
  · rfl
  · exact inBounds_foldl_applyUpdate _ ctx r c

/-- A cell outside the bounds is never reported locked. -/
lemma is_locked_of_not_inBounds (ctx : Context) (r c : Int)
    (h : ctx.inBounds r c = false) : ctx.is_locked r c = false := by
  simp [Context.is_locked, h]

/-- No column at or after the scan start but strictly before the scan's
final position holds the comment delimiter `'#'`. -/
lemma scanHash_not_hash_before (ctx : Context) (row : Int) :
    ∀ (fuel : Nat) (c0 j : Int), c0 ≤ j → j < scanHash ctx row c0 fuel →
      ctx.read row j ≠ '#' := by
  intro fuel
  induction fuel with
  | zero =>
      intro c0 j h1 h2
      simp only [scanHash] at h2
      omega
  | succ n ih =>
      intro c0 j h1 h2
      simp only [scanHash] at h2
      by_cases hh : ctx.read row c0 = '#'
      · rw [if_pos hh] at h2
        omega
      · rw [if_neg hh] at h2
        by_cases hn : n = 0
        · rw [if_pos hn] at h2
          omega
        · rw [if_neg hn] at h2
          by_cases hj : j = c0
          · subst hj
            exact hh
          · exact ih (c0 + 1) j (by omega) h2

/-- With at least one column to scan, the scan's final position either
holds `'#'` or is the last column of the scanned range (the grid edge). -/
lemma scanHash_stops (ctx : Context) (row : Int) :
    ∀ (fuel : Nat) (c0 : Int), 0 < fuel →
      ctx.read row (scanHash ctx row c0 fuel) = '#' ∨
      scanHash ctx row c0 fuel = c0 + (fuel : Int) - 1 := by
  intro fuel
  induction fuel with
  | zero =>
      intro c0 h
      omega
  | succ n ih =>
      intro c0 _
      simp only [scanHash]
      by_cases hh : ctx.read row c0 = '#'
      · rw [if_pos hh]
        exact Or.inl hh
      · rw [if_neg hh]
        by_cases hn : n = 0
        · rw [if_pos hn]
          right
          subst hn
          push_cast
          omega
        · rw [if_neg hn]
          rcases ih (c0 + 1) (Nat.pos_of_ne_zero hn) with h | h
          · exact Or.inl h
          · right
            rw [h]
            push_cast
            omega

/-- C2 counterexample: the claimed round-trip `decode(encode(m,u)) =
(m mod 36, u)` fails at magnitude 0 with the upper-case flag, because
magnitudes below 10 encode as digits, which always decode with a clear
case flag. -/
theorem C2_codec_roundtrip_cex :
    char_to_base_36 (base_36_to_char 0 true) ≠ (0 % 36, true) := by decide

/-- C2 (amended): for every magnitude 0-35 and case flag, the decoded
magnitude is exactly the original; the case flag survives exactly when the
magnitude is at least 10 (letters) and is cleared for magnitudes below 10
(digits). -/
theorem C2_codec_roundtrip :
    ∀ (m : Fin 36) (u : Bool),
      char_to_base_36 (base_36_to_char m.val u)
        = (m.val % 36, if m.val < 10 then false else u) := by decide

/-- C6: if the cell at (row, col) is locked, `Operator::apply` leaves the
entire context unchanged - no writes, locks, notes, or variable entries -
for every operator, context, and position; hence a second invocation on an
already-locked cell in the same tick produces no further mutation. -/
theorem C6_locked_apply_is_noop (op : Operator) (ctx : Context) (row col : Int)
    (h : ctx.is_locked row col = true) : op.apply ctx row col = ctx := by
  simp [Operator.apply, h]

/-- C6 witness: applying the east operator to a context whose target cell
is locked returns the context unchanged. -/
theorem C6_locked_apply_is_noop_witness :
    eastOperator.apply lockedCtx 0 0 = lockedCtx :=
  C6_locked_apply_is_noop eastOperator lockedCtx 0 0 (by decide)

set_option maxRecDepth 100000 in
/-- C1 counterexample: on the 5 × 2 Delay-only grid, the code's
`grid_tick` lets the bang written at (3,0) by the bang-phase `d` at (2,0)
trigger the bang-phase `d` at (3,1) within the same tick (writing a bang
at (4,1)), whereas the claimed single-hop semantics
(`grid_tick_single_hop`) leaves (4,1) empty. -/
theorem C1_single_hop_cex :
    (grid_tick_single_hop bangChainCtx (tickOpsOf delayOnlyConfig)
        (bangOpsOf delayOnlyConfig)).read 4 1 = '\x00' ∧
    (grid_tick bangChainCtx (tickOpsOf delayOnlyConfig)
        (bangOpsOf delayOnlyConfig)).read 4 1 = '*' := by decide

set_option maxRecDepth 100000 in
/-- C1 (amended): the bang-operator pass of `grid_tick` runs after the
tick-operator pass, but it checks neighbor bangs against the evolving grid
while scanning, so a bang written by a bang-operator can trigger another
bang-operator at a later row-major position within the same tick.  On the
5 × 2 Delay-only grid, tick 0 turns the initially empty cells (1,0), (3,0)
and (4,1) into bangs: (1,0) from the tick-phase `D`, (3,0) from the
bang-phase `d` at (2,0) (fired by the tick-pass bang), and (4,1) from the
bang-phase `d` at (3,1), fired by the bang that (2,0) wrote during this
same bang pass. -/
theorem C1_bang_chain_same_tick :
    bangChainCtx.read 1 0 = '\x00' ∧
    bangChainCtx.read 3 0 = '\x00' ∧
    bangChainCtx.read 4 1 = '\x00' ∧
    (grid_tick bangChainCtx (tickOpsOf delayOnlyConfig)
        (bangOpsOf delayOnlyConfig)).read 1 0 = '*' ∧
    (grid_tick bangChainCtx (tickOpsOf delayOnlyConfig)
        (bangOpsOf delayOnlyConfig)).read 3 0 = '*' ∧
    (grid_tick bangChainCtx (tickOpsOf delayOnlyConfig)
        (bangOpsOf delayOnlyConfig)).read 4 1 = '*' := by decide

/-- C3 counterexample: with both operands `'6'`, the Multiply operator
writes `'0'` below itself (6 × 6 = 36 wraps modulo 36 in the codec),
whereas a product clamped to the magnitude range 0-35 would encode as
`'z'`. -/
theorem C3_multiply_cex :
    (multiplyOperator.apply mulCtx 0 1).read 1 1 = '0' ∧
    base_36_to_char (min (6 * 6) 35) (false || false) = 'z' ∧
    ('0' : Char) ≠ 'z' := by decide

/-- C4 counterexample: moving East into an empty destination succeeds (the
value moves and the source is cleared), yet the source cell (0,0) ends up
locked, contradicting the claim that only the destination is locked on the
success path. -/
theorem C4_east_cex :
    (eastOperator.apply eastCtx 0 0).read 0 0 = '\x00' ∧
    (eastOperator.apply eastCtx 0 0).read 0 1 = 'E' ∧
    (eastOperator.apply eastCtx 0 0).is_locked 0 0 = true := by decide

/-- C5 counterexample: with key 0 and len 1, Push places its value operand
`'x'` at (1,0), i.e. directly below the operator at column
`col + (key mod len)`, not at the claimed column `col + 1 + (key mod len)`,
which stays empty. -/
theorem C5_push_cex :
    (pushOperator.apply pushCtx 0 0).read 1 0 = 'x' ∧
    (pushOperator.apply pushCtx 0 0).read 1 1 = '\x00' ∧
    ('x' : Char) ≠ '\x00' := by decide

/-- C3 (amended): Multiply writes below itself the codec encoding of the
`u8`-saturating product `min(a*b, 255)` of the decoded operand magnitudes
(defaults `'0'`), with the case flags disjoined; the codec then reduces
modulo 36, so products of in-range magnitudes between 36 and 255 wrap
rather than clamp, and only products above 255 saturate (at 255, which
encodes as `'3'`). -/
theorem C3_multiply_saturates_at_255 (ctx : Context) (row col : Int)
    (h1 : ctx.is_locked row col = false)
    (h2 : ctx.inBounds (row + 1) col = true) :
    (multiplyOperator.apply ctx row col).read (row + 1) col
      = base_36_to_char
          (min ((char_to_base_36 ((ctx.listen "a" row (col - 1) '0').value)).1 *
                (char_to_base_36 ((ctx.listen "b" row (col + 1) '0').value)).1) 255)
          ((char_to_base_36 ((ctx.listen "a" row (col - 1) '0').value)).2 ||
           (char_to_base_36 ((ctx.listen "b" row (col + 1) '0').value)).2) := by
  have hg : ¬ (ctx.is_locked row col = true) := by simp [h1]
  unfold multiplyOperator Operator.apply
  rw [if_neg hg]
  simp only [multiply, Port.new, List.foldl_cons, List.foldl_nil, applyUpdate]
  rw [Context.read_lock, Context.read_write_self]
  simp only [Context.inBounds_lock]
  exact h2

/-- C3 witness: with operands `'7'` and `'7'`, the product 49 is below the
saturation point and wraps to 13 modulo 36, writing `'d'`. -/
theorem C3_multiply_saturates_at_255_witness :
    (multiplyOperator.apply (mkContext 2 3 [(0, 0, '7'), (0, 1, 'M'), (0, 2, '7')] 0)
        0 1).read 1 1 = 'd' := by
  have h := C3_multiply_saturates_at_255
    (mkContext 2 3 [(0, 0, '7'), (0, 1, 'M'), (0, 2, '7')] 0) 0 1
    (by decide) (by decide)
  exact h.trans (by decide)

/-- C4 (amended): when the destination of East reads empty, the source's
value moves into the destination, the source is cleared, and both source
and destination end up locked (the source too, because the success path
emits the source cell as an output, and outputs are locked after writing);
when the destination is non-empty, the source is replaced by the bang
marker and the destination's value and lock state are untouched. -/
theorem C4_east_move_or_bounce (ctx : Context) (row col : Int)
    (h1 : ctx.is_locked row col = false)
    (hs : ctx.inBounds row col = true)
    (hd : ctx.inBounds row (col + 1) = true) :
    (ctx.read row (col + 1) = '\x00' →
      (eastOperator.apply ctx row col).read row col = '\x00' ∧
      (eastOperator.apply ctx row col).read row (col + 1) = ctx.read row col ∧
      (eastOperator.apply ctx row col).is_locked row col = true ∧
      (eastOperator.apply ctx row col).is_locked row (col + 1) = true) ∧
    (ctx.read row (col + 1) ≠ '\x00' →
      (eastOperator.apply ctx row col).read row col = '*' ∧
      (eastOperator.apply ctx row col).read row (col + 1) = ctx.read row (col + 1) ∧
      (eastOperator.apply ctx row col).is_locked row (col + 1)
        = ctx.is_locked row (col + 1)) := by
  have hg : ¬ (ctx.is_locked row col = true) := by simp [h1]
  constructor
  · intro hemp
    have e1 : eastOperator.apply ctx row col
        = ((((ctx.write row col '\x00').lock row col).write row (col + 1)
              (if ctx.read row col = '\x00' then '\x00' else ctx.read row col)).lock
              row (col + 1)).lock row (col + 1) := by
      unfold eastOperator Operator.apply
      rw [if_neg hg]
      simp only [east, Context.listen, hemp, if_pos, List.foldl_cons, List.foldl_nil,
        applyUpdate, ite_self]
    refine ⟨?_, ?_, ?_, ?_⟩
    · rw [e1, Context.read_lock, Context.read_lock, Context.read_write_of_ne,
        Context.read_lock, Context.read_write_self]
      · exact hs
      · omega
    · rw [e1, Context.read_lock, Context.read_lock, Context.read_write_self]
      · by_cases hc : ctx.read row col = '\x00' <;> simp [hc]
      · simp only [Context.inBounds_lock, Context.inBounds_write]
        exact hd
    · rw [e1, Context.is_locked_lock_of_ne, Context.is_locked_lock_of_ne,
        Context.is_locked_write]
      · apply Context.is_locked_lock_self
        rw [Context.inBounds_write]
        exact hs
      · omega
      · omega
    · rw [e1]
      apply Context.is_locked_lock_self
      simp only [Context.inBounds_lock, Context.inBounds_write]
      exact hd
  · intro hne
    have e2 : eastOperator.apply ctx row col
        = (ctx.write row col '*').lock row col := by
      unfold eastOperator Operator.apply
      rw [if_neg hg]
      simp only [east, Context.listen, if_neg hne, List.foldl_cons, List.foldl_nil,
        applyUpdate, hne, ite_false, if_neg (fun h => hne h)]
    refine ⟨?_, ?_, ?_⟩
    · rw [e2, Context.read_lock, Context.read_write_self]
      exact hs
    · rw [e2, Context.read_lock, Context.read_write_of_ne]
      omega
    · rw [e2, Context.is_locked_lock_of_ne, Context.is_locked_write]
      omega

/-- C4 witness: on the 1 × 2 grid holding only an East glyph, the
destination is empty, so the glyph moves east and both cells are locked. -/
theorem C4_east_move_or_bounce_witness :
    (eastOperator.apply eastCtx 0 0).is_locked 0 1 = true := by
  have h := C4_east_move_or_bounce eastCtx 0 0 (by decide) (by decide) (by decide)
  exact (h.1 (by decide)).2.2.2

/-- C5 (amended): Push places its value operand at
`(row+1, col + (key mod len))` - the span one row below starts directly
under the operator, not one column to its right - and locks the `len`
cells `(row+1, col), ..., (row+1, col+len-1)`. -/
theorem C5_push_places_and_locks (ctx : Context) (row col : Int)
    (h1 : ctx.is_locked row col = false)
    (hspan : ∀ i : Nat,
      i < max (char_to_base_36 ((ctx.listen "len" row (col - 1) '1').value)).1 1 →
      ctx.inBounds (row + 1) (col + (i : Int)) = true) :
    (pushOperator.apply ctx row col).read (row + 1)
        (col + (((char_to_base_36 ((ctx.listen "key" row (col - 2) '0').value)).1
          % max (char_to_base_36 ((ctx.listen "len" row (col - 1) '1').value)).1 1
          : Nat) : Int))
      = (ctx.listen "val" row (col + 1) '\x00').value ∧
    ∀ i : Nat,
      i < max (char_to_base_36 ((ctx.listen "len" row (col - 1) '1').value)).1 1 →
      (pushOperator.apply ctx row col).is_locked (row + 1) (col + (i : Int)) = true := by
  have hg : ¬ (ctx.is_locked row col = true) := by simp [h1]
  have hposL : 0 < max (char_to_base_36 ((ctx.listen "len" row (col - 1) '1').value)).1 1 :=
    lt_of_lt_of_le Nat.one_pos (le_max_right _ 1)
  unfold pushOperator Operator.apply
  rw [if_neg hg]
  simp only [push, Port.new, List.foldl_cons, List.foldl_nil, applyUpdate]
  constructor
  · rw [read_foldl_lock, Context.read_lock, Context.read_write_self]
    simp only [Context.inBounds_lock]
    exact hspan _ (Nat.mod_lt _ hposL)
  · intro i hi
    apply is_locked_foldl_lock_of_mem
    · simp only [Context.inBounds_lock, Context.inBounds_write]
      exact hspan i hi
    · have hmem :
          Port.new "locked" (row + 1) (col + (i : Int)) '\x00'
            ∈ (List.range (max (char_to_base_36
                ((ctx.listen "len" row (col - 1) '1').value)).1 1)).map
              (fun n : Nat => Port.new "locked" (row + 1) (col + (n : Int)) '\x00') :=
        List.mem_map_of_mem _ (List.mem_range.mpr hi)
      exact ⟨Port.new "locked" (row + 1) (col + (i : Int)) '\x00', hmem, rfl, rfl⟩

/-- C5 witness: with key 0 and len 1, the value `'x'` is readable at
(1,0) and the one-cell span below the operator is locked. -/
theorem C5_push_places_and_locks_witness :
    (pushOperator.apply pushCtx 0 0).is_locked 1 0 = true := by
  have h := C5_push_places_and_locks pushCtx 0 0 (by decide)
    (by
      intro i hi
      have hb : i < 1 := hi.trans_le (by decide)
      have h0 : i = 0 := by omega
      subst h0
      decide)
  have h2 := h.2 0 (by decide)
  exact h2

/-- C7: the Clock operator writes below itself the encoding of
`(ticks / max(rate,1)) mod max(mod,1)` (case following the mod operand),
and with rate `'1'` and mod `'4'` the outputs at tick counts 0,1,2,3,4 are
`'0','1','2','3','0'`. -/
theorem C7_clock_formula_and_scenario :
    (∀ (ctx : Context) (row col : Int),
        ctx.is_locked row col = false →
        ctx.inBounds (row + 1) col = true →
        (clockOperator.apply ctx row col).read (row + 1) col
          = base_36_to_char
              (ctx.ticks / max (char_to_base_36 ((ctx.listen "rate" row (col - 1) '1').value)).1 1
                % max (char_to_base_36 ((ctx.listen "mod" row (col + 1) '8').value)).1 1)
              (char_to_base_36 ((ctx.listen "mod" row (col + 1) '8').value)).2) ∧
    (clockOperator.apply (clockCtx 0) 0 1).read 1 1 = '0' ∧
    (clockOperator.apply (clockCtx 1) 0 1).read 1 1 = '1' ∧
    (clockOperator.apply (clockCtx 2) 0 1).read 1 1 = '2' ∧
    (clockOperator.apply (clockCtx 3) 0 1).read 1 1 = '3' ∧
    (clockOperator.apply (clockCtx 4) 0 1).read 1 1 = '0' := by
  refine ⟨?_, by decide, by decide, by decide, by decide, by decide⟩
  intro ctx row col h1 h2
  have hg : ¬ (ctx.is_locked row col = true) := by simp [h1]
  have hmle := char_to_base_36_fst_le ((ctx.listen "mod" row (col + 1) '8').value)
  have hpos : 0 < max (char_to_base_36 ((ctx.listen "mod" row (col + 1) '8').value)).1 1 :=
    lt_of_lt_of_le Nat.one_pos (le_max_right _ 1)
  have hsmall :
      ctx.ticks / max (char_to_base_36 ((ctx.listen "rate" row (col - 1) '1').value)).1 1
        % max (char_to_base_36 ((ctx.listen "mod" row (col + 1) '8').value)).1 1 < 256 := by
    have := Nat.mod_lt
      (ctx.ticks / max (char_to_base_36 ((ctx.listen "rate" row (col - 1) '1').value)).1 1)
      hpos
    omega
  unfold clockOperator Operator.apply
  rw [if_neg hg]
  simp only [clock, Port.new, List.foldl_cons, List.foldl_nil, applyUpdate]
  rw [Context.read_lock, Context.read_write_self]
  · rw [Nat.mod_eq_of_lt hsmall]
  · simp only [Context.inBounds_lock]
    exact h2

/-- C7 witness: at tick count 7 with rate `'1'` and mod `'4'`, the clock
writes `'3'` (7 mod 4). -/
theorem C7_clock_formula_and_scenario_witness :
    (clockOperator.apply (clockCtx 7) 0 1).read 1 1 = '3' := by
  have h := C7_clock_formula_and_scenario.1 (clockCtx 7) 0 1 (by decide) (by decide)
  exact h.trans (by decide)

/-- C8: a Comment delimiter occupying the sole cell of a 1 × 1 grid locks
its own cell and, because the rightward scan runs out of columns without
finding a second delimiter, no other cell of the store ends up locked (the
update list's trailing port at column 1 lies outside the grid and is
discarded by the store's defensive bounds handling). -/
theorem C8_solo_comment_locks_only_itself :
    (commentOperator.apply soloCommentCtx 0 0).is_locked 0 0 = true ∧
    ∀ r c : Int, ¬(r = 0 ∧ c = 0) →
      (commentOperator.apply soloCommentCtx 0 0).is_locked r c = false := by
  refine ⟨by decide, ?_⟩
  intro r c h
  by_cases hb : soloCommentCtx.inBounds r c = true
  · exfalso
    simp only [soloCommentCtx, mkContext, Context.inBounds, Bool.and_eq_true,
      decide_eq_true_eq] at hb
    exact h ⟨by omega, by omega⟩
  · rw [Bool.not_eq_true] at hb
    apply is_locked_of_not_inBounds
    rw [inBounds_apply]
    exact hb

/-- C8 witness: the out-of-grid column 1 named by the comment's lock span
is not reported locked. -/
theorem C8_solo_comment_locks_only_itself_witness :
    (commentOperator.apply soloCommentCtx 0 0).is_locked 0 1 = false :=
  C8_solo_comment_locks_only_itself.2 0 1 (by simp)

/-- C9: the comment scan stops only at the literal character `'#'`: every
column from the scan start up to (excluding) the final position holds a
non-`'#'` character, and when at least one column is scanned the final
position either holds `'#'` or is the last scanned column (grid edge) -
independently of the glyph the symbol table assigns to Comment.
Concretely, with Comment configured as `';'`, the span opened at (0,0) of
`"; a ; b #"` passes through the second `';'` at column 2 and closes only
at the `'#'` at column 4, locking columns 2 and 4 alike. -/
theorem C9_comment_scan_stops_only_at_hash :
    (∀ (ctx : Context) (row : Int) (fuel : Nat) (c0 j : Int),
        c0 ≤ j → j < scanHash ctx row c0 fuel → ctx.read row j ≠ '#') ∧
    (∀ (ctx : Context) (row : Int) (fuel : Nat) (c0 : Int), 0 < fuel →
        ctx.read row (scanHash ctx row c0 fuel) = '#' ∨
        scanHash ctx row c0 fuel = c0 + (fuel : Int) - 1) ∧
    semiCtx.read 0 0 = ';' ∧
    semiCtx.read 0 2 = ';' ∧
    scanHash semiCtx 0 1 4 = 4 ∧
    semiCtx.read 0 4 = '#' ∧
    (commentOperator.apply semiCtx 0 0).is_locked 0 2 = true ∧
    (commentOperator.apply semiCtx 0 0).is_locked 0 4 = true :=
  ⟨fun ctx row fuel => scanHash_not_hash_before ctx row fuel,
   fun ctx row fuel => scanHash_stops ctx row fuel,
   by decide, by decide, by decide, by decide, by decide, by decide⟩

/-- C9 witness: column 3 of the `';'`-configured comment row, which lies
strictly inside the scanned span, does not hold `'#'`. -/
theorem C9_comment_scan_stops_only_at_hash_witness :
    semiCtx.read 0 3 ≠ '#' :=
  C9_comment_scan_stops_only_at_hash.1 semiCtx 0 4 1 3 (by decide) (by decide)

/-- C10: when the Variable operator's write operand cell is non-empty, its
dispatch writes no cell at all, locks nothing but the read operand cell at
(row, col+1) - in particular the write operand cell at (row, col-1) keeps
its lock state, so it can still be dispatched later in the same pass - and
sets the variable named by the write operand to the read operand cell's
character, leaving the note queue untouched. -/
theorem C10_variable_store_frame (ctx : Context) (row col : Int)
    (h1 : ctx.is_locked row col = false)
    (h2 : ctx.read row (col - 1) ≠ '\x00') :
    (∀ r c : Int, (variableOperator.apply ctx row col).read r c = ctx.read r c) ∧
    (∀ r c : Int, ¬(r = row ∧ c = col + 1) →
      (variableOperator.apply ctx row col).is_locked r c = ctx.is_locked r c) ∧
    (variableOperator.apply ctx row col).is_locked row (col - 1)
      = ctx.is_locked row (col - 1) ∧
    (variableOperator.apply ctx row col).read_variable (ctx.read row (col - 1))
      = ctx.read row (col + 1) ∧
    (variableOperator.apply ctx row col).notes = ctx.notes := by
  have hg : ¬ (ctx.is_locked row col = true) := by simp [h1]
  have e1 : variableOperator.apply ctx row col
      = (ctx.lock row (col + 1)).set_variable (ctx.read row (col - 1))
          (if ctx.read row (col + 1) = '\x00' then '\x00'
           else ctx.read row (col + 1)) := by
    unfold variableOperator Operator.apply
    rw [if_neg hg]
    simp only [variableOp, Context.listen, Port.new, if_neg h2,
      List.foldl_cons, List.foldl_nil, applyUpdate, h2, ite_false]
  refine ⟨?_, ?_, ?_, ?_, ?_⟩
  · intro r c
    rw [e1, Context.read_set_variable, Context.read_lock]
  · intro r c h
    rw [e1, Context.is_locked_set_variable, Context.is_locked_lock_of_ne _ _ _ _ _ h]
  · rw [e1, Context.is_locked_set_variable, Context.is_locked_lock_of_ne]
    omega
  · rw [e1, Context.read_variable_set_self]
    by_cases hv : ctx.read row (col + 1) = '\x00' <;> simp [hv]
  · rw [e1, Context.notes_set_variable, Context.notes_lock]

/-- C10 witness: on the grid `"x V 5"` the store branch records
`variable['x'] = '5'` and leaves the write operand cell (0,0) unlocked. -/
theorem C10_variable_store_frame_witness :
    (variableOperator.apply varCtx 0 1).read_variable 'x' = '5' := by
  have h := (C10_variable_store_frame varCtx 0 1 (by decide) (by decide)).2.2.2.1
  exact h.trans (by decide)

end Orca
